import Mathlib

/-!
Shallow embedding of the orijen-udf-service agents (the base, site and
lightweight variants of app.py) together with proofs about their
metadata-resolution and delivery behaviour.  Python dictionaries, JSON
bodies and exceptions are modelled explicitly; the network transports
(HTTP GET/POST, SQS send) are abstracted as oracles passed to each
function, so every definition is executable on concrete inputs.
-/

namespace Orijen

/-- Python/JSON values as produced by response.json(): None, booleans,
strings, integers, lists and string-keyed dicts (JSON object keys are
always strings). -/
inductive JVal where
  | null : JVal
  | bool : Bool → JVal
  | s : String → JVal
  | num : Int → JVal
  | arr : List JVal → JVal
  | obj : List (String × JVal) → JVal

/-- The Python exception classes that the handlers in the source
distinguish (query_metadata catches KeyError and IndexError only;
the other handlers catch Exception, i.e. everything). -/
inductive PyErr where
  | keyError : PyErr
  | indexError : PyErr
  | typeError : PyErr
  | attributeError : PyErr
deriving DecidableEq

/-- A Python computation: a value or a raised exception. -/
abbrev Py (α : Type) : Type := Except PyErr α

theorem py_bind_ok {α β : Type} (a : α) (f : α → Py β) :
    ((Except.ok a : Py α) >>= f) = f a := rfl

theorem py_bind_error {α β : Type} (e : PyErr) (f : α → Py β) :
    ((Except.error e : Py α) >>= f) = .error e := rfl

theorem py_pure {α : Type} (a : α) : (pure a : Py α) = .ok a := rfl

/-- Ordered association-list lookup, the semantics of a Python dict
lookup for string keys. -/
def dictLookup : List (String × JVal) → String → Option JVal
  | [], _ => none
  | (k, v) :: rest, key => if k = key then some v else dictLookup rest key

/-- Python d.get(k): None when the key is absent; AttributeError when the
receiver is not a dict. -/
def JVal.dictGet : JVal → String → Py JVal
  | .obj fs, k => .ok ((dictLookup fs k).getD .null)
  | _, _ => .error .attributeError

/-- Python d.get(k, default): the default when the key is absent;
AttributeError when the receiver is not a dict. -/
def JVal.dictGetD : JVal → String → JVal → Py JVal
  | .obj fs, k, d => .ok ((dictLookup fs k).getD d)
  | _, _, _ => .error .attributeError

/-- Python d[k] for a string key k: KeyError when absent from a dict,
TypeError when the receiver is not a dict (JSON arrays, strings, None,
numbers and booleans all reject string subscripts). -/
def JVal.sub : JVal → String → Py JVal
  | .obj fs, k =>
    match dictLookup fs k with
    | some v => .ok v
    | none => .error .keyError
  | _, _ => .error .typeError

/-- Python v[i] for a Nat index: list indexing with IndexError out of
range; KeyError on a (string-keyed) dict; one-character string on a
string; TypeError otherwise. -/
def JVal.index : JVal → Nat → Py JVal
  | .arr xs, i =>
    match xs.get? i with
    | some v => .ok v
    | none => .error .indexError
  | .obj _, _ => .error .keyError
  | .s str, i =>
    match str.data.get? i with
    | some c => .ok (.s (String.mk [c]))
    | none => .error .indexError
  | _, _ => .error .typeError

/-- Python iteration over a JSON value: lists yield elements, dicts yield
their keys, strings yield one-character strings, everything else raises
TypeError. -/
def JVal.iter : JVal → Py (List JVal)
  | .arr xs => .ok xs
  | .obj fs => .ok (fs.map (fun p => .s p.1))
  | .s str => .ok (str.data.map (fun c => .s (String.mk [c])))
  | _ => .error .typeError

/-- Python truthiness of a JSON value. -/
def jTruthy : JVal → Bool
  | .null => false
  | .bool b => b
  | .s str => str ≠ ""
  | .num n => n ≠ 0
  | .arr xs => !xs.isEmpty
  | .obj fs => !fs.isEmpty

/-! ## The SQS heartbeat delivery loop (base/app/app.py, main, lines 205-223)

    while retries < max_retries:
        success = send_sqs(sqs_meta)
        if success: retries = 0 ...
        else: retries += 1 ...
    sys.exit(1)

One Bool per send attempt (true = send_sqs returned a truthy response).
The loop is driven by a finite prefix of the outcome trace: the result is
some 1 when the loop terminated and the process exited with status 1
within the trace, and none when the trace was exhausted with the loop
still running. -/
def heartbeat_loop (outcomes : List Bool) (retries max_retries : Nat) : Option Nat :=
  if max_retries ≤ retries then some 1
  else
    match outcomes with
    | [] => none
    | success :: rest =>
      heartbeat_loop rest (if success then 0 else retries + 1) max_retries

theorem heartbeat_loop_ceiling (t : List Bool) (r m : Nat) (h : m ≤ r) :
    heartbeat_loop t r m = some 1 := by
  cases t <;> simp [heartbeat_loop, h]

theorem heartbeat_loop_fail_run (k : Nat) :
    ∀ (r : Nat) (t : List Bool), 6 ≤ r + k →
      heartbeat_loop (List.replicate k false ++ t) r 6 = some 1 := by
  induction k with
  | zero =>
    intro r t h
    exact heartbeat_loop_ceiling t r 6 (by omega)
  | succ k ih =>
    intro r t h
    by_cases hr : 6 ≤ r
    · exact heartbeat_loop_ceiling _ r 6 hr
    · rw [List.replicate_succ, List.cons_append]
      rw [heartbeat_loop]
      simp only [if_neg hr, if_neg (by exact Bool.false_ne_true)]
      exact ih (r + 1) t (by omega)

theorem heartbeat_loop_any_prefix (p : List Bool) :
    ∀ (r : Nat) (t : List Bool),
      heartbeat_loop (p ++ (List.replicate 6 false ++ t)) r 6 = some 1 := by
  induction p with
  | nil =>
    intro r t
    exact heartbeat_loop_fail_run 6 r t (by omega)
  | cons b p ih =>
    intro r t
    by_cases hr : 6 ≤ r
    · exact heartbeat_loop_ceiling _ r 6 hr
    · rw [List.cons_append, heartbeat_loop]
      simp only [if_neg hr]
      exact ih _ t

/-- C1: in the heartbeat delivery loop the fatal condition is the length
of the current run of consecutive send failures, not the cumulative
count: any trace containing 6 consecutive failures makes the loop
terminate and the process exit with status 1; a successful send resets
the failure counter to zero; and a success after 3 failures followed by
5 more failures does not trip the ceiling. -/
theorem heartbeat_consecutive_failures_fatal :
    (∀ (p t : List Bool),
        heartbeat_loop (p ++ (List.replicate 6 false ++ t)) 0 6 = some 1)
    ∧ (∀ (r : Nat) (t : List Bool), r < 6 →
        heartbeat_loop (true :: t) r 6 = heartbeat_loop t 0 6)
    ∧ heartbeat_loop
        ([false, false, false, true] ++ List.replicate 5 false) 0 6 = none := by
  refine ⟨fun p t => heartbeat_loop_any_prefix p 0 t, fun r t h => ?_, by decide⟩
  rw [heartbeat_loop]
  simp [show ¬ 6 ≤ r by omega]

theorem heartbeat_consecutive_failures_fatal_witness :
    heartbeat_loop ([] ++ (List.replicate 6 false ++ [])) 0 6 = some 1
    ∧ (0 < 6 ∧ heartbeat_loop [true] 0 6 = heartbeat_loop [] 0 6) :=
  ⟨heartbeat_consecutive_failures_fatal.1 [] [],
   by decide,
   heartbeat_consecutive_failures_fatal.2.1 0 [] (by decide)⟩

/-! ## fetch_metadata (base/app/app.py lines 23-41; identical in the
other two variants up to the exception class caught)

    retry_delay = 1
    for attempt in range(max_retries):
        try:
            response = requests.get(url); response.raise_for_status()
            return response.json()
        except ...:
            if attempt < max_retries - 1:
                time.sleep(retry_delay); retry_delay *= 2
            else:
                return None

The oracle resp gives the outcome of the HTTP GET for each attempt index
(none = the attempt raised / failed).  The model returns the result, the
number of requests issued, and the list of sleeps performed between
attempts, in order. -/
def fetch_metadata_go (resp : Nat → Option JVal) :
    Nat → Nat → Nat → Option JVal × Nat × List Nat
  | _, 0, _ => (none, 0, [])
  | attempt, fuel + 1, retry_delay =>
    match resp attempt with
    | some v => (some v, 1, [])
    | none =>
      if fuel = 0 then (none, 1, [])
      else
        match fetch_metadata_go resp (attempt + 1) fuel (retry_delay * 2) with
        | (r, n, ds) => (r, n + 1, retry_delay :: ds)

def fetch_metadata (resp : Nat → Option JVal) (max_retries : Nat := 5) :
    Option JVal × Nat × List Nat :=
  fetch_metadata_go resp 0 max_retries 1

theorem fetch_metadata_go_allfail (resp : Nat → Option JVal)
    (h : ∀ n, n < 5 → resp n = none) :
    fetch_metadata_go resp 0 5 1 = (none, 5, [1, 2, 4, 8]) := by
  have h0 := h 0 (by omega)
  have h1 := h 1 (by omega)
  have h2 := h 2 (by omega)
  have h3 := h 3 (by omega)
  have h4 := h 4 (by omega)
  simp [fetch_metadata_go, h0, h1, h2, h3, h4]

/-- C2: with its default maximum of 5 attempts, fetch_metadata under
sustained failure issues exactly 5 requests, sleeps exactly between
consecutive attempts with delays 1, 2, 4, 8 (four delays for five
attempts, none before the first attempt or after the last), and returns
None after the fifth failed attempt instead of raising. -/
theorem fetch_metadata_backoff_exhaustion (resp : Nat → Option JVal)
    (h : ∀ n, n < 5 → resp n = none) :
    fetch_metadata resp 5 = (none, 5, [1, 2, 4, 8]) :=
  fetch_metadata_go_allfail resp h

theorem fetch_metadata_backoff_exhaustion_witness :
    fetch_metadata (fun _ => none) 5 = (none, 5, [1, 2, 4, 8]) :=
  fetch_metadata_backoff_exhaustion (fun _ => none) (fun _ _ => rfl)

/-! ## find_aws_cred (base/app/app.py lines 43-54; identical in site)

    try:
        for account in cloud_accounts.get("cloudAccounts", []):
            for credential in account.get("credentials", []):
                if credential.get("type") == "AWS_API_CREDENTIAL":
                    return credential
    except Exception:
        return None

The argument is the result of fetch_metadata, so it may be None (in
which case None.get raises AttributeError, caught by the handler).
Falling off the loops returns None as well. -/
def scanCreds : List JVal → Py (Option JVal)
  | [] => .ok none
  | c :: rest => do
    let t ← c.dictGet "type"
    match t with
    | .s ty => if ty = "AWS_API_CREDENTIAL" then pure (some c) else scanCreds rest
    | _ => scanCreds rest

def scanAccounts : List JVal → Py (Option JVal)
  | [] => .ok none
  | a :: rest => do
    let credsV ← a.dictGetD "credentials" (.arr [])
    let creds ← credsV.iter
    let r ← scanCreds creds
    match r with
    | some c => pure (some c)
    | none => scanAccounts rest

def find_aws_cred (cloud_accounts : Option JVal) : Option JVal :=
  let comp : Py (Option JVal) :=
    match cloud_accounts with
    | none => .error .attributeError
    | some v => do
      let accV ← v.dictGetD "cloudAccounts" (.arr [])
      let accs ← accV.iter
      scanAccounts accs
  match comp with
  | .ok r => r
  | .error _ => none

/-- Is this credential entry a dict whose type tag equals
AWS_API_CREDENTIAL?  (The predicate of the claim.) -/
def isAwsB : JVal → Bool
  | .obj fs =>
    match dictLookup fs "type" with
    | some (.s ty) => ty = "AWS_API_CREDENTIAL"
    | _ => false
  | _ => false

def isObjB : JVal → Bool
  | .obj _ => true
  | _ => false

/-- The credential list of a well-formed account. -/
def getCreds : JVal → List JVal
  | .obj fs =>
    match dictLookup fs "credentials" with
    | some (.arr cs) => cs
    | _ => []
  | _ => []

/-- The account list of a well-formed cloud-accounts listing. -/
def getAccounts : JVal → List JVal
  | .obj fs =>
    match dictLookup fs "cloudAccounts" with
    | some (.arr accs) => accs
    | _ => []
  | _ => []

/-- A well-formed account: a dict whose credentials field, when present,
is a list of dicts. -/
def wfAccount : JVal → Bool
  | .obj fs =>
    match dictLookup fs "credentials" with
    | none => true
    | some (.arr cs) => cs.all isObjB
    | some _ => false
  | _ => false

/-- A well-formed cloud-accounts listing: a dict whose cloudAccounts
field, when present, is a list of well-formed accounts. -/
def wfListing : JVal → Bool
  | .obj fs =>
    match dictLookup fs "cloudAccounts" with
    | none => true
    | some (.arr accs) => accs.all wfAccount
    | some _ => false
  | _ => false

theorem scanCreds_eq_find (cs : List JVal) (h : cs.all isObjB = true) :
    scanCreds cs = .ok (cs.find? isAwsB) := by
  induction cs with
  | nil => rfl
  | cons c rest ih =>
    rw [List.all_cons, Bool.and_eq_true] at h
    obtain ⟨hc, hrest⟩ := h
    cases c with
    | obj fs =>
      cases hl : dictLookup fs "type" with
      | none =>
        rw [scanCreds, List.find?_cons_of_neg _ (by simp [isAwsB, hl])]
        simp only [JVal.dictGet, hl, Option.getD, py_bind_ok]
        exact ih hrest
      | some tv =>
        cases tv with
        | s ty =>
          by_cases hty : ty = "AWS_API_CREDENTIAL"
          · rw [scanCreds, List.find?_cons_of_pos _ (by simp [isAwsB, hl, hty])]
            simp [JVal.dictGet, hl, Option.getD, py_bind_ok, py_pure, hty]
          · rw [scanCreds, List.find?_cons_of_neg _ (by simp [isAwsB, hl, hty])]
            simp only [JVal.dictGet, hl, Option.getD, py_bind_ok, if_neg hty]
            exact ih hrest
        | null =>
          rw [scanCreds, List.find?_cons_of_neg _ (by simp [isAwsB, hl])]
          simp only [JVal.dictGet, hl, Option.getD, py_bind_ok]
          exact ih hrest
        | bool b =>
          rw [scanCreds, List.find?_cons_of_neg _ (by simp [isAwsB, hl])]
          simp only [JVal.dictGet, hl, Option.getD, py_bind_ok]
          exact ih hrest
        | num n =>
          rw [scanCreds, List.find?_cons_of_neg _ (by simp [isAwsB, hl])]
          simp only [JVal.dictGet, hl, Option.getD, py_bind_ok]
          exact ih hrest
        | arr xs =>
          rw [scanCreds, List.find?_cons_of_neg _ (by simp [isAwsB, hl])]
          simp only [JVal.dictGet, hl, Option.getD, py_bind_ok]
          exact ih hrest
        | obj gs =>
          rw [scanCreds, List.find?_cons_of_neg _ (by simp [isAwsB, hl])]
          simp only [JVal.dictGet, hl, Option.getD, py_bind_ok]
          exact ih hrest
    | null => simp [isObjB] at hc
    | bool b => simp [isObjB] at hc
    | s str => simp [isObjB] at hc
    | num n => simp [isObjB] at hc
    | arr xs => simp [isObjB] at hc

theorem scanAccounts_eq_find (accs : List JVal) (h : accs.all wfAccount = true) :
    scanAccounts accs = .ok ((accs.map getCreds).flatten.find? isAwsB) := by
  induction accs with
  | nil => rfl
  | cons a rest ih =>
    rw [List.all_cons, Bool.and_eq_true] at h
    obtain ⟨ha, hrest⟩ := h
    cases a with
    | obj fs =>
      cases hl : dictLookup fs "credentials" with
      | none =>
        rw [scanAccounts]
        simp only [JVal.dictGetD, hl, Option.getD, py_bind_ok, JVal.iter, scanCreds]
        rw [List.map_cons, List.flatten_cons]
        have hg : getCreds (.obj fs) = [] := by simp [getCreds, hl]
        rw [hg, List.nil_append]
        exact ih hrest
      | some cv =>
        cases cv with
        | arr cs =>
          have hcs : cs.all isObjB = true := by
            have h2 := ha
            simp only [wfAccount, hl] at h2
            exact h2
          rw [scanAccounts]
          simp only [JVal.dictGetD, hl, Option.getD, py_bind_ok, JVal.iter]
          rw [scanCreds_eq_find cs hcs]
          simp only [py_bind_ok]
          rw [List.map_cons, List.flatten_cons]
          have hg : getCreds (.obj fs) = cs := by simp [getCreds, hl]
          rw [hg, List.find?_append]
          cases hf : cs.find? isAwsB with
          | some c => simp [hf, Option.or, py_pure]
          | none => simp only [hf, Option.or]; exact ih hrest
        | null => simp [wfAccount, hl] at ha
        | bool b => simp [wfAccount, hl] at ha
        | s str => simp [wfAccount, hl] at ha
        | num n => simp [wfAccount, hl] at ha
        | obj gs => simp [wfAccount, hl] at ha
    | null => simp [wfAccount] at ha
    | bool b => simp [wfAccount] at ha
    | s str => simp [wfAccount] at ha
    | num n => simp [wfAccount] at ha
    | arr xs => simp [wfAccount] at ha

/-- The cloud-accounts listing of the claim's concrete example. -/
def exampleAwsCred : JVal :=
  .obj [("type", .s "AWS_API_CREDENTIAL"), ("key", .s "K"), ("secret", .s "S")]

def exampleListing : JVal :=
  .obj [("cloudAccounts", .arr
    [.obj [("credentials", .arr [.obj [("type", .s "X")]])],
     .obj [("credentials", .arr [exampleAwsCred])]])]

/-- C4: the credential scan is a first-match linear scan in
service-returned order (outer loop over accounts, inner loop over each
account's credentials): on every well-formed cloud-accounts listing it
returns the first credential whose type equals AWS_API_CREDENTIAL; on
the concrete listing of the claim it returns the key K / secret S
credential of the second account, ignoring the first account. -/
theorem find_aws_cred_first_match :
    (∀ v : JVal, wfListing v = true →
        find_aws_cred (some v) = ((getAccounts v).map getCreds).flatten.find? isAwsB)
    ∧ find_aws_cred (some exampleListing) = some exampleAwsCred := by
  constructor
  · intro v hv
    cases v with
    | obj fs =>
      cases hl : dictLookup fs "cloudAccounts" with
      | none =>
        simp only [find_aws_cred, JVal.dictGetD, hl, Option.getD, py_bind_ok,
          JVal.iter, scanAccounts]
        simp [getAccounts, hl]
      | some av =>
        cases av with
        | arr accs =>
          have haccs : accs.all wfAccount = true := by
            simp only [wfListing, hl] at hv
            exact hv
          simp only [find_aws_cred, JVal.dictGetD, hl, Option.getD, py_bind_ok,
            JVal.iter]
          rw [scanAccounts_eq_find accs haccs]
          simp [getAccounts, hl]
        | null => simp [wfListing, hl] at hv
        | bool b => simp [wfListing, hl] at hv
        | s str => simp [wfListing, hl] at hv
        | num n => simp [wfListing, hl] at hv
        | obj gs => simp [wfListing, hl] at hv
    | null => simp [wfListing] at hv
    | bool b => simp [wfListing] at hv
    | s str => simp [wfListing] at hv
    | num n => simp [wfListing] at hv
    | arr xs => simp [wfListing] at hv
  · rfl

theorem find_aws_cred_first_match_witness :
    wfListing exampleListing = true
    ∧ find_aws_cred (some exampleListing)
        = ((getAccounts exampleListing).map getCreds).flatten.find? isAwsB :=
  ⟨rfl, find_aws_cred_first_match.1 exampleListing rfl⟩

/-! ## find_user_tags (base/app/app.py lines 56-72; identical in site up
to debug prints)

    try:
        all_tags = meta_tags[0].get("userTags", [])
        user_tags = {}
        tag_list = [t for t in all_tags if t.get("name") in tags]
        for tag in tag_list:
            user_tags[tag["name"]] = tag["value"]
    except Exception:
        return None
    if len(user_tags) == len(tags):
        return user_tags
    else:
        return None
-/

/-- Python dict insertion: overwrite keeps the first insertion position,
a new key is appended. -/
def dictInsertS (m : List (String × JVal)) (k : String) (v : JVal) :
    List (String × JVal) :=
  match m with
  | [] => [(k, v)]
  | (k0, v0) :: rest =>
    if k0 = k then (k0, v) :: rest else (k0, v0) :: dictInsertS rest k v

/-- The comprehension filter: t.get("name") in tags (a JSON value equals
a Python string only when it is that string). -/
def tag_filter (tags : List String) : List JVal → Py (List JVal)
  | [] => .ok []
  | t :: rest => do
    let n ← t.dictGet "name"
    let keep := match n with
                | .s ns => tags.contains ns
                | _ => false
    let tl ← tag_filter tags rest
    pure (if keep then t :: tl else tl)

/-- The collection loop: user_tags[tag["name"]] = tag["value"].  The
filter kept only tags whose name is one of the requested (string) tag
names, so the name is always a string; the non-string arm is
unreachable. -/
def tag_collect : List JVal → List (String × JVal) → Py (List (String × JVal))
  | [], acc => .ok acc
  | t :: rest, acc => do
    let n ← t.sub "name"
    let v ← t.sub "value"
    match n with
    | .s ns => tag_collect rest (dictInsertS acc ns v)
    | _ => tag_collect rest acc

/-- find_user_tags: meta_tags is the (possibly None) result of
fetch_metadata; indexing None raises TypeError, caught by the handler.
The length comparison runs outside the try block. -/
def find_user_tags (meta_tags : Option JVal) (tags : List String) : Option JVal :=
  let comp : Py (List (String × JVal)) := do
    let mt ← match meta_tags with
             | none => (.error .typeError : Py JVal)
             | some v => .ok v
    let first ← mt.index 0
    let allTagsV ← first.dictGetD "userTags" (.arr [])
    let allTags ← allTagsV.iter
    let tagList ← tag_filter tags allTags
    tag_collect tagList []
  match comp with
  | .error _ => none
  | .ok ut => if ut.length = tags.length then some (.obj ut) else none

/-! ## query_metadata of the base variant (base/app/app.py lines 95-126)

    deployment = fetch_metadata(f"{base}/deployment")
    if deployment is None: return None
    runner_user_tags = find_user_tags(
        fetch_metadata(f"{base}/userTags/name/XC/value/runner"), ["LabID"])
    if runner_user_tags is None: return None
    aws_credential = find_aws_cred(fetch_metadata(f"{base}/cloudAccounts"))
    if aws_credential is None: return None
    try:
        return { "depID": ..., "deployer": ..., "labID": ...,
                 "awsSecret": ..., "awsKey": ... }
    except (KeyError, IndexError): return None

world gives, per endpoint and attempt index, the outcome of each HTTP
GET; the second component of the result logs one entry per HTTP request
actually issued, in order. -/
inductive BaseEndpoint where
  | deployment : BaseEndpoint
  | userTagsRunner : BaseEndpoint
  | cloudAccounts : BaseEndpoint
deriving DecidableEq

/-- The record-building try block; only KeyError and IndexError are
caught (a missing deployment key makes .get return None whose subscript
raises an uncaught TypeError). -/
def extract_base (deployment user_tags cred : JVal) : Py (Option JVal) :=
  let comp : Py JVal := do
    let d1 ← deployment.dictGet "deployment"
    let depId ← d1.sub "id"
    let d2 ← deployment.dictGet "deployment"
    let deployer ← d2.sub "deployer"
    let labId ← user_tags.dictGet "LabID"
    let secret ← cred.dictGet "secret"
    let key ← cred.dictGet "key"
    pure (.obj [("depID", depId), ("deployer", deployer), ("labID", labId),
                ("awsSecret", secret), ("awsKey", key)])
  match comp with
  | .ok v => .ok (some v)
  | .error .keyError => .ok none
  | .error .indexError => .ok none
  | .error e => .error e

def query_metadata_base (world : BaseEndpoint → Nat → Option JVal) :
    Py (Option JVal) × List BaseEndpoint :=
  let depR := fetch_metadata (world .deployment) 5
  let log1 := List.replicate depR.2.1 BaseEndpoint.deployment
  match depR.1 with
  | none => (.ok none, log1)
  | some dep =>
    let tagsR := fetch_metadata (world .userTagsRunner) 5
    let log2 := log1 ++ List.replicate tagsR.2.1 BaseEndpoint.userTagsRunner
    match find_user_tags tagsR.1 ["LabID"] with
    | none => (.ok none, log2)
    | some uts =>
      let accR := fetch_metadata (world .cloudAccounts) 5
      let log3 := log2 ++ List.replicate accR.2.1 BaseEndpoint.cloudAccounts
      match find_aws_cred accR.1 with
      | none => (.ok none, log3)
      | some cred => (extract_base dep uts cred, log3)

/-- C3: the metadata resolution cascade short-circuits in strict order:
when the deployment fetch fails the resolver returns None at once having
issued requests only against the deployment endpoint (five of them, by
the backoff policy) and zero requests against the user-tag and
cloud-accounts endpoints; and whenever the user-tag stage fails, the
cloud-accounts endpoint is never contacted. -/
theorem query_metadata_short_circuit (world : BaseEndpoint → Nat → Option JVal) :
    ((∀ n, n < 5 → world .deployment n = none) →
      query_metadata_base world
          = (.ok none, List.replicate 5 BaseEndpoint.deployment)
      ∧ (query_metadata_base world).2.count BaseEndpoint.userTagsRunner = 0
      ∧ (query_metadata_base world).2.count BaseEndpoint.cloudAccounts = 0)
    ∧ (find_user_tags (fetch_metadata (world .userTagsRunner) 5).1 ["LabID"] = none →
        (query_metadata_base world).2.count BaseEndpoint.cloudAccounts = 0) := by
  constructor
  · intro h
    have hdep : fetch_metadata (world .deployment) 5 = (none, 5, [1, 2, 4, 8]) :=
      fetch_metadata_go_allfail (world .deployment) h
    have hq : query_metadata_base world
        = (.ok none, List.replicate 5 BaseEndpoint.deployment) := by
      simp [query_metadata_base, hdep]
    refine ⟨hq, ?_, ?_⟩ <;> simp [hq, List.count_replicate]
  · intro h
    cases hdep : (fetch_metadata (world .deployment) 5).1 with
    | none =>
      have hq : (query_metadata_base world).2
          = List.replicate (fetch_metadata (world .deployment) 5).2.1
              BaseEndpoint.deployment := by
        simp [query_metadata_base, hdep]
      simp [hq, List.count_replicate]
    | some dep =>
      have hq : (query_metadata_base world).2
          = List.replicate (fetch_metadata (world .deployment) 5).2.1
              BaseEndpoint.deployment
            ++ List.replicate (fetch_metadata (world .userTagsRunner) 5).2.1
                BaseEndpoint.userTagsRunner := by
        simp [query_metadata_base, hdep, h]
      simp [hq, List.count_append, List.count_replicate]

theorem query_metadata_short_circuit_witness :
    query_metadata_base (fun _ _ => none)
        = (.ok none, List.replicate 5 BaseEndpoint.deployment)
    ∧ (query_metadata_base (fun _ _ => none)).2.count BaseEndpoint.cloudAccounts = 0 :=
  ⟨((query_metadata_short_circuit (fun _ _ => none)).1 (fun _ _ => rfl)).1,
   (query_metadata_short_circuit (fun _ _ => none)).2 rfl⟩

/-! ## find_aws_region (app/app.py lines 44-57)

    latency_map = {}
    for region in cloud_account["regions"]:
        try:
            url = f"https://dynamodb.{region}.amazonaws.com/ping"
            r = requests.get(url)
            latency_map[region] = r.elapsed.total_seconds()
        except Exception:
            pass
    fastest_region = [k for k, v in sorted(latency_map.items(),
                                           key=lambda p: p[1], reverse=False)]
    return fastest_region[0] if bool(fastest_region) else default_region

The probe oracle gives the elapsed seconds of the GET against a region's
ping host, none when the request raised (such a region is skipped).
Unhashable region values (lists, dicts) make the dict assignment raise,
which the handler also turns into a skip.  Python's sorted is stable, so
it is modelled by a stable insertion sort. -/
def jHashable : JVal → Bool
  | .arr _ => false
  | .obj _ => false
  | _ => true

/-- Python equality on hashable JSON scalars (dict-key comparison). -/
def jkeyEq : JVal → JVal → Bool
  | .null, .null => true
  | .bool a, .bool b => a = b
  | .s a, .s b => a = b
  | .num a, .num b => a = b
  | _, _ => false

def dictInsertQ (m : List (JVal × ℚ)) (k : JVal) (v : ℚ) : List (JVal × ℚ) :=
  match m with
  | [] => [(k, v)]
  | (k0, v0) :: rest =>
    if jkeyEq k0 k then (k0, v) :: rest else (k0, v0) :: dictInsertQ rest k v

def build_latency_map (regions : List JVal) (probe : JVal → Option ℚ) :
    List (JVal × ℚ) :=
  regions.foldl (fun m r =>
    match probe r with
    | some t => if jHashable r then dictInsertQ m r t else m
    | none => m) []

/-- Stable insertion: a new element goes after every element whose
elapsed time is less than or equal to its own. -/
def sortIns (p : JVal × ℚ) : List (JVal × ℚ) → List (JVal × ℚ)
  | [] => [p]
  | q :: rest => if p.2 < q.2 then p :: q :: rest else q :: sortIns p rest

def sortByElapsed (l : List (JVal × ℚ)) : List (JVal × ℚ) :=
  l.foldl (fun acc p => sortIns p acc) []

def find_aws_region_list (regions : List JVal) (probe : JVal → Option ℚ)
    (default_region : JVal := .s "us-west-2") : JVal :=
  match (sortByElapsed (build_latency_map regions probe)).head? with
  | some p => p.1
  | none => default_region

def find_aws_region (cloud_account : JVal) (probe : JVal → Option ℚ)
    (default_region : JVal := .s "us-west-2") : Py JVal := do
  let regionsV ← cloud_account.sub "regions"
  let regions ← regionsV.iter
  pure (find_aws_region_list regions probe default_region)

/-- The claim's wording of the selector: among the candidates whose
probe produced a measurement, the one with the lowest latency, the
earliest in scan order breaking ties; the default region when none. -/
def minByElapsed (l : List (JVal × ℚ)) : Option (JVal × ℚ) :=
  l.foldl (fun o p =>
    match o with
    | none => some p
    | some q => if p.2 < q.2 then some p else some q) none

def specRegionSelect (regions : List JVal) (probe : JVal → Option ℚ)
    (default_region : JVal) : JVal :=
  match minByElapsed (regions.filterMap fun r => (probe r).map fun t => (r, t)) with
  | some p => p.1
  | none => default_region

theorem sortIns_head (p : JVal × ℚ) (m : List (JVal × ℚ)) :
    (sortIns p m).head? = some (match m.head? with
      | none => p
      | some q => if p.2 < q.2 then p else q) := by
  cases m with
  | nil => rfl
  | cons q rest => by_cases h : p.2 < q.2 <;> simp [sortIns, h]

theorem sortByElapsed_head_aux (l : List (JVal × ℚ)) :
    ∀ acc : List (JVal × ℚ),
      (l.foldl (fun acc p => sortIns p acc) acc).head?
        = l.foldl (fun o p =>
            match o with
            | none => some p
            | some q => if p.2 < q.2 then some p else some q) acc.head? := by
  induction l with
  | nil => intro acc; rfl
  | cons p rest ih =>
    intro acc
    rw [List.foldl_cons, List.foldl_cons, ih (sortIns p acc)]
    congr 1
    rw [sortIns_head]
    cases acc.head? with
    | none => rfl
    | some q => by_cases h : p.2 < q.2 <;> simp [h]

theorem dictInsertQ_append (m : List (JVal × ℚ)) (k : JVal) (v : ℚ)
    (h : ∀ x ∈ m, jkeyEq x.1 k = false) : dictInsertQ m k v = m ++ [(k, v)] := by
  induction m with
  | nil => rfl
  | cons x rest ih =>
    have hx : jkeyEq x.1 k = false := h x (by simp)
    cases x with
    | mk k0 v0 =>
      rw [dictInsertQ]
      simp only at hx
      rw [hx]
      simp only [Bool.false_eq_true, if_false, List.cons_append]
      rw [ih (fun y hy => h y (by simp [hy]))]

theorem build_latency_map_aux (probe : JVal → Option ℚ) :
    ∀ (regions : List JVal) (acc : List (JVal × ℚ)),
      (∀ r ∈ regions, jHashable r = true) →
      List.Pairwise (fun a b => jkeyEq a b = false) regions →
      (∀ r ∈ regions, ∀ x ∈ acc, jkeyEq x.1 r = false) →
      regions.foldl (fun m r =>
          match probe r with
          | some t => if jHashable r then dictInsertQ m r t else m
          | none => m) acc
        = acc ++ regions.filterMap (fun r => (probe r).map fun t => (r, t)) := by
  intro regions
  induction regions with
  | nil => intro acc _ _ _; simp
  | cons r rest ih =>
    intro acc hh hp hacc
    rw [List.pairwise_cons] at hp
    rw [List.foldl_cons, List.filterMap_cons]
    cases hpr : probe r with
    | none =>
      simp only []
      rw [ih acc (fun y hy => hh y (by simp [hy])) hp.2
            (fun y hy x hx => hacc y (by simp [hy]) x hx)]
      simp
    | some t =>
      have hhr : jHashable r = true := hh r (by simp)
      simp only [hhr, if_true]
      rw [dictInsertQ_append acc r t (fun x hx => hacc r (by simp) x hx)]
      rw [ih (acc ++ [(r, t)]) (fun y hy => hh y (by simp [hy])) hp.2 ?later]
      · simp [hpr]
      case later =>
        intro y hy x hx
        rcases List.mem_append.mp hx with hxa | hxr
        · exact hacc y (by simp [hy]) x hxa
        · have hxe : x = (r, t) := by simpa using hxr
          subst hxe
          exact hp.1 y hy

theorem find_aws_region_list_spec (names : List String) (probe : JVal → Option ℚ)
    (d : JVal) (h : names.Nodup) :
    find_aws_region_list (names.map JVal.s) probe d
      = specRegionSelect (names.map JVal.s) probe d := by
  have hpair : List.Pairwise (fun a b => jkeyEq a b = false) (names.map JVal.s) := by
    rw [List.pairwise_map]
    refine h.imp ?_
    intro a b hab
    simp [jkeyEq, hab]
  have hb : build_latency_map (names.map JVal.s) probe
      = (names.map JVal.s).filterMap (fun r => (probe r).map fun t => (r, t)) := by
    have := build_latency_map_aux probe (names.map JVal.s) []
      (by intro r hr; rcases List.mem_map.mp hr with ⟨n, _, rfl⟩; rfl)
      hpair (by intro r _ x hx; cases hx)
    simpa [build_latency_map] using this
  rw [find_aws_region_list, specRegionSelect, sortByElapsed,
    sortByElapsed_head_aux, hb]
  rfl

def exampleProbe : JVal → Option ℚ := fun r =>
  match r with
  | .s str =>
    if str = "a" then some (mkRat 1 2)
    else if str = "b" then some (mkRat 1 10)
    else if str = "c" then some (mkRat 3 10)
    else none
  | _ => none

/-- C6: the region selector returns the candidate with the lowest
measured latency, excluding failed probes, breaking ties by original
scan order (stable ascending sort), and returns the fixed default
us-west-2 when no candidate produced a measurement; for candidates
a, b, c with latencies 0.5, 0.1, 0.3 it returns b. -/
theorem find_aws_region_lowest_latency :
    (∀ (names : List String) (probe : JVal → Option ℚ), names.Nodup →
        find_aws_region_list (names.map JVal.s) probe (.s "us-west-2")
          = specRegionSelect (names.map JVal.s) probe (.s "us-west-2"))
    ∧ (∀ (regions : List JVal) (probe : JVal → Option ℚ), (∀ r, probe r = none) →
        find_aws_region_list regions probe (.s "us-west-2") = .s "us-west-2")
    ∧ find_aws_region (.obj [("regions", .arr [.s "a", .s "b", .s "c"])])
        exampleProbe = .ok (.s "b") := by
  refine ⟨fun names probe h => find_aws_region_list_spec names probe _ h,
    fun regions probe h => ?_, rfl⟩
  have hb : build_latency_map regions probe = [] := by
    rw [build_latency_map]
    induction regions with
    | nil => rfl
    | cons r rest ih => rw [List.foldl_cons, h r]; exact ih
  rw [find_aws_region_list, hb]
  rfl

theorem find_aws_region_lowest_latency_witness :
    find_aws_region_list (["a", "b", "c"].map JVal.s) exampleProbe (.s "us-west-2")
      = specRegionSelect (["a", "b", "c"].map JVal.s) exampleProbe (.s "us-west-2") :=
  find_aws_region_lowest_latency.1 ["a", "b", "c"] exampleProbe (by decide)

/-! ## send_sqs (base/app/app.py lines 165-193) and the teardown hook

    def send_sqs(metadata: dict, kill: bool=False):
        try:
            sqs = boto3.client('sqs', region_name=metadata['region'],
                aws_access_key_id=metadata['awsKey'],
                aws_secret_access_key=metadata['awsSecret'])
            message = {'id': metadata['depID'], 'deployer': metadata['deployer'],
                       'lab_id': metadata['labID'], 'kill': kill}
        except Exception: ... return None
        try:
            response = sqs.send_message(QueueUrl=metadata['sqsURL'],
                                        MessageBody=json.dumps(message))
            return response
        except Exception: ... return None

main registers the teardown notification with
atexit.register(send_sqs, sqs_meta, True) (line 209): the same function,
the same metadata, kill=True, run once at process exit.  The SQS
transport is abstracted as the oracle send (queue URL, message body);
the model also returns the list of transport attempts actually made. -/
def sqs_client_args (metadata : JVal) : Py (JVal × JVal × JVal) := do
  let r ← metadata.sub "region"
  let k ← metadata.sub "awsKey"
  let sec ← metadata.sub "awsSecret"
  pure (r, k, sec)

def sqs_message (metadata : JVal) (kill : Bool) : Py JVal := do
  let i ← metadata.sub "depID"
  let d ← metadata.sub "deployer"
  let l ← metadata.sub "labID"
  pure (.obj [("id", i), ("deployer", d), ("lab_id", l), ("kill", .bool kill)])

def send_sqs (metadata : JVal) (kill : Bool)
    (send : JVal → JVal → Except Unit JVal) : Option JVal × List (JVal × JVal) :=
  match (do
      let _ ← sqs_client_args metadata
      sqs_message metadata kill : Py JVal) with
  | .error _ => (none, [])
  | .ok message =>
    match metadata.sub "sqsURL" with
    | .error _ => (none, [])
    | .ok url =>
      match send url message with
      | .ok resp => (some resp, [(url, message)])
      | .error _ => (none, [(url, message)])

/-- Replace the kill flag of an SQS message. -/
def withKill (m : JVal) (b : Bool) : JVal :=
  match m with
  | .obj [("id", i), ("deployer", d), ("lab_id", l), ("kill", _)] =>
    .obj [("id", i), ("deployer", d), ("lab_id", l), ("kill", .bool b)]
  | v => v

/-- C8: the teardown notification is a single best-effort send of the
heartbeat message shape with the kill flag set to true: at most one
transport attempt is ever made (exactly one when the metadata record is
complete), the sent message is the heartbeat message with kill replaced
by true, and every transport failure yields None (logged only) instead
of raising or retrying. -/
theorem send_sqs_teardown_best_effort (md : JVal)
    (send : JVal → JVal → Except Unit JVal) :
    (send_sqs md true send).2.length ≤ 1
    ∧ sqs_message md true = Except.map (fun m => withKill m true) (sqs_message md false)
    ∧ ((∀ u m, send u m = .error ()) → (send_sqs md true send).1 = none)
    ∧ (∀ a msg url, sqs_client_args md = .ok a → sqs_message md true = .ok msg →
        md.sub "sqsURL" = .ok url →
        (send_sqs md true send).2 = [(url, msg)]) := by
  refine ⟨?_, ?_, ?_, ?_⟩
  · unfold send_sqs
    split
    · simp
    · split
      · simp
      · split <;> simp
  · unfold sqs_message
    cases h1 : md.sub "depID" with
    | error e => simp [h1, py_bind_error, Except.map]
    | ok i =>
      cases h2 : md.sub "deployer" with
      | error e => simp [h1, h2, py_bind_ok, py_bind_error, Except.map]
      | ok d =>
        cases h3 : md.sub "labID" with
        | error e => simp [h1, h2, h3, py_bind_ok, py_bind_error, Except.map]
        | ok l => simp [h1, h2, h3, py_bind_ok, py_pure, Except.map, withKill]
  · intro hsend
    unfold send_sqs
    split
    · rfl
    · split
      · rfl
      · simp [hsend]
  · intro a msg url h1 h2 h3
    simp [send_sqs, h1, h2, h3, py_bind_ok]
    cases hs : send url msg <;> simp

def exampleSqsMeta : JVal :=
  .obj [("depID", .s "dep-123"), ("deployer", .s "alice"), ("labID", .s "LAB1"),
        ("sqsURL", .s "https://sqs.us-west-2.amazonaws.com/q"),
        ("region", .s "us-west-2"), ("awsKey", .s "K"), ("awsSecret", .s "S")]

theorem send_sqs_teardown_best_effort_witness :
    (send_sqs exampleSqsMeta true (fun _ _ => .error ())).1 = none
    ∧ (send_sqs exampleSqsMeta true (fun _ _ => .error ())).2
        = [(.s "https://sqs.us-west-2.amazonaws.com/q",
            .obj [("id", .s "dep-123"), ("deployer", .s "alice"),
                  ("lab_id", .s "LAB1"), ("kill", .bool true)])] :=
  ⟨(send_sqs_teardown_best_effort exampleSqsMeta (fun _ _ => .error ())).2.2.1
      (fun _ _ => rfl),
   (send_sqs_teardown_best_effort exampleSqsMeta (fun _ _ => .error ())).2.2.2
      _ _ _ rfl rfl rfl⟩

/-! ## register_ce (site/app/app.py lines 127-166)

    ce_ip = fetch_metadata(f"{base}/userTags/name/XC/value/CE")[0]["mgmtIp"]
    ce_port = "65500"
    if ce_ip is None: ... return None
    try:
        payload = { "hostname": ..., "latitude": ..., "longitude": ...,
                    "cert_hardware": ..., "primary_outside_nic": ...,
                    "token": ..., "cluster_name": f"cluster-{...}" }
        url = ...; headers = {'Authorization': labInfo['siteStatic']['auth']}
        retry_delay = 10
        for attempt in range(max_retries):
            try:
                response = requests.post(url, json=payload, headers=headers,
                                         verify=False)
                response.raise_for_status()
                if response.status_code == 200 and response.json(): return True
            except requests.RequestException as e:
                if attempt < max_retries - 1:
                    time.sleep(retry_delay); retry_delay *= 2
                else:
                    raise Exception("Max retries reached. CE not registered.")
    except Exception as e:
        ... return None

The outcome of each POST attempt: reqError is a raised RequestException
(connection error or a raise_for_status status), ok carries the status
code and the parsed body, okBadJson is a 200-class response whose body
fails to parse (response.json() raises ValueError, which the inner
handler does not catch). -/
inductive PostResult where
  | reqError : PostResult
  | ok : Nat → JVal → PostResult
  | okBadJson : Nat → PostResult

/-- The bounded retry loop of register_ce: result (None = fell through
or aborted, True = registered), number of POST requests issued, sleeps
performed between attempts. -/
def register_ce_retry_go (resp : Nat → PostResult) :
    Nat → Nat → Nat → Option Bool × Nat × List Nat
  | _, 0, _ => (none, 0, [])
  | attempt, fuel + 1, retry_delay =>
    match resp attempt with
    | .ok status body =>
      if status = 200 && jTruthy body then (some true, 1, [])
      else
        match register_ce_retry_go resp (attempt + 1) fuel retry_delay with
        | (r, n, ds) => (r, n + 1, ds)
    | .okBadJson status =>
      if status = 200 then (none, 1, [])
      else
        match register_ce_retry_go resp (attempt + 1) fuel retry_delay with
        | (r, n, ds) => (r, n + 1, ds)
    | .reqError =>
      if fuel = 0 then (none, 1, [])
      else
        match register_ce_retry_go resp (attempt + 1) fuel (retry_delay * 2) with
        | (r, n, ds) => (r, n + 1, retry_delay :: ds)

def register_ce_retry (resp : Nat → PostResult) (max_retries : Nat := 5) :
    Option Bool × Nat × List Nat :=
  register_ce_retry_go resp 0 max_retries 10

/-- C7 counterexample: the registration retry loop does not use the
same backoff delays as the metadata fetcher: under sustained failure its
sleeps are 10, 20, 40, 80, not the fetcher's 1, 2, 4, 8. -/
theorem register_ce_backoff_differs_from_fetcher :
    (register_ce_retry (fun _ => .reqError) 5).2.2 = [10, 20, 40, 80]
    ∧ (fetch_metadata (fun _ => none) 5).2.2 = [1, 2, 4, 8]
    ∧ (register_ce_retry (fun _ => .reqError) 5).2.2
        ≠ (fetch_metadata (fun _ => none) 5).2.2 :=
  ⟨rfl, rfl, by decide⟩

/-- C7 (amended): under sustained POST failure, register_ce's bounded
retry loop makes exactly 5 attempts with the same doubling structure as
the metadata fetcher but a base delay of 10 time units (sleeps 10, 20,
40, 80 between attempts), and exhausting the retries aborts registration
for this run with a failure value (no infinite loop). -/
theorem register_ce_backoff_exhaustion (resp : Nat → PostResult)
    (h : ∀ n, n < 5 → resp n = .reqError) :
    register_ce_retry resp 5 = (none, 5, [10, 20, 40, 80]) := by
  have h0 := h 0 (by omega)
  have h1 := h 1 (by omega)
  have h2 := h 2 (by omega)
  have h3 := h 3 (by omega)
  have h4 := h 4 (by omega)
  simp [register_ce_retry, register_ce_retry_go, h0, h1, h2, h3, h4]

theorem register_ce_backoff_exhaustion_witness :
    register_ce_retry (fun _ => .reqError) 5 = (none, 5, [10, 20, 40, 80]) :=
  register_ce_backoff_exhaustion (fun _ => .reqError) (fun _ _ => rfl)

/-- register_ce's management-endpoint resolution (site/app/app.py line
131), which runs before the try block:
fetch_metadata(...)[0]["mgmtIp"].  When the fetch returned None,
None[0] raises TypeError. -/
def register_ce_resolve_ip (ce_tag_fetch : Option JVal) : Py JVal :=
  match ce_tag_fetch with
  | none => .error .typeError
  | some v => do
    let e0 ← v.index 0
    e0.sub "mgmtIp"

/-- The registration payload of register_ce (lines 137-145).  The
labInfo['siteStatic'] lookup is repeated per field in the source; the
lookups are pure, so a single binding is equivalent. -/
def register_ce_payload (metadata labInfo : JVal) : Py JVal := do
  let ss ← labInfo.sub "siteStatic"
  let hostname ← ss.sub "hostname"
  let lat ← ss.sub "lat"
  let lng ← ss.sub "long"
  let cert ← ss.sub "cert_hardware"
  let nic ← ss.sub "primary_outside_nic"
  let token ← labInfo.sub "token"
  let depId ← metadata.sub "depID"
  let cluster ← match depId with
                | .s str => (.ok ((str.splitOn "-").headD "") : Py String)
                | _ => (.error .attributeError : Py String)
  pure (.obj [("hostname", hostname), ("latitude", lat), ("longitude", lng),
              ("cert_hardware", cert), ("primary_outside_nic", nic),
              ("token", token), ("cluster_name", .s ("cluster-" ++ cluster))])

/-- register_ce: the IP resolution runs outside the try block, so its
exceptions propagate out of the function; the dead `if ce_ip is None`
guard follows it; everything else (payload, headers, retry loop,
including the loop's exhaustion exception) is inside the catch-all try,
whose handler returns None. -/
def register_ce (ce_tag_fetch : Option JVal) (metadata labInfo : JVal)
    (resp : Nat → PostResult) (max_retries : Nat := 5) : Py (Option Bool) := do
  let ce_ip ← register_ce_resolve_ip ce_tag_fetch
  match ce_ip with
  | .null => pure none
  | _ =>
    match (do
        let payload ← register_ce_payload metadata labInfo
        let ss2 ← labInfo.sub "siteStatic"
        let auth ← ss2.sub "auth"
        pure (payload, auth) : Py (JVal × JVal)) with
    | .error _ => pure none
    | .ok _ => pure (register_ce_retry resp max_retries).1

/-- C9 (against the claim): when the fetch of the CE management-endpoint
tag fails (the fetcher returns None), register_ce does not return a
failure value: subscripting None raises a TypeError that propagates out
of the function (the `if ce_ip is None` guard is dead code because the
subscript precedes it and the try block starts only after it). -/
theorem register_ce_none_tag_fetch_raises :
    register_ce none (.obj []) (.obj []) (fun _ => .reqError) 5
      = .error .typeError := rfl

/-! ## The lightweight variant (app/app.py)

query_metadata (lines 59-102) fetches deployment, deploymentTags and
cloudAccounts; find_aws_metadata (lines 28-42) pairs the first AWS
credential with find_aws_region(account); main (lines 133-160) then
reads metadata['LabID'] and calls send_sqs(metadata['SQS_URL'], payload)
although the record's keys are labID and sqsURL and send_sqs takes a
single dict parameter. -/
inductive LiteEndpoint where
  | deployment : LiteEndpoint
  | deploymentTags : LiteEndpoint
  | cloudAccounts : LiteEndpoint
deriving DecidableEq

def scanAccountsLite (probe : JVal → Option ℚ) : List JVal → Py (Option JVal)
  | [] => .ok none
  | a :: rest => do
    let credsV ← a.dictGetD "credentials" (.arr [])
    let creds ← credsV.iter
    let r ← scanCreds creds
    match r with
    | some c => do
      let region ← find_aws_region a probe
      pure (some (.obj [("aws_cred", c), ("region", region)]))
    | none => scanAccountsLite probe rest

def find_aws_metadata (cloud_accounts : Option JVal) (probe : JVal → Option ℚ) :
    Option JVal :=
  let comp : Py (Option JVal) :=
    match cloud_accounts with
    | none => .error .attributeError
    | some v => do
      let accV ← v.dictGetD "cloudAccounts" (.arr [])
      let accs ← accV.iter
      scanAccountsLite probe accs
  match comp with
  | .ok r => r
  | .error _ => none

/-- The record-building try block of the lightweight query_metadata
(lines 83-102); only KeyError and IndexError are caught. -/
def extract_lite (deployment deployment_tags aws_metadata : JVal) :
    Py (Option JVal) :=
  let comp : Py JVal := do
    let d1 ← deployment.dictGet "deployment"
    let depId ← d1.sub "id"
    let d2 ← deployment.dictGet "deployment"
    let deployer ← d2.sub "deployer"
    let labId ← deployment_tags.dictGet "LabID"
    let sqsUrl ← deployment_tags.dictGet "SQS"
    let cred ← aws_metadata.dictGet "aws_cred"
    let secret ← cred.dictGet "secret"
    let key ← cred.dictGet "key"
    let region ← aws_metadata.dictGet "region"
    pure (.obj [("depID", depId), ("deployer", deployer), ("labID", labId),
                ("sqsURL", sqsUrl), ("awsSecret", secret), ("awsKey", key),
                ("region", region)])
  match comp with
  | .ok v => .ok (some v)
  | .error .keyError => .ok none
  | .error .indexError => .ok none
  | .error e => .error e

def query_metadata_lite (world : LiteEndpoint → Nat → Option JVal)
    (probe : JVal → Option ℚ) : Py (Option JVal) :=
  match (fetch_metadata (world .deployment) 5).1 with
  | none => .ok none
  | some dep =>
    match (fetch_metadata (world .deploymentTags) 5).1 with
    | none => .ok none
    | some tags =>
      match find_aws_metadata (fetch_metadata (world .cloudAccounts) 5).1 probe with
      | none => .ok none
      | some awsMeta => extract_lite dep tags awsMeta

/-- The post-resolution part of the lightweight main (lines 140-157):
payload = {"LabID": metadata['LabID']} raises KeyError when the key is
absent; were that reached, the first loop iteration would evaluate
metadata['SQS_URL'] (KeyError) and then call send_sqs with two
positional arguments, a TypeError, since it accepts exactly one.  The
second component counts messages actually delivered. -/
def main_lite (metadata : Option JVal) : Py Nat × Nat :=
  match metadata with
  | none => (.ok 1, 0)
  | some md =>
    if jTruthy md then
      match md.sub "LabID" with
      | .error e => (.error e, 0)
      | .ok _payload =>
        match md.sub "SQS_URL" with
        | .error e => (.error e, 0)
        | .ok _ => (.error .typeError, 0)
    else (.ok 1, 0)

def main_lite_run (world : LiteEndpoint → Nat → Option JVal)
    (probe : JVal → Option ℚ) : Py Nat × Nat :=
  match query_metadata_lite world probe with
  | .error e => (.error e, 0)
  | .ok metadata => main_lite metadata

theorem py_bind_eq_ok {α β : Type} {x : Py α} {f : α → Py β} {b : β} :
    (x >>= f) = .ok b ↔ ∃ a, x = .ok a ∧ f a = .ok b := by
  cases x with
  | error e => simp [py_bind_error]
  | ok a => simp [py_bind_ok]

theorem extract_lite_shape (a b c md : JVal)
    (h : extract_lite a b c = .ok (some md)) :
    ∃ v1 v2 v3 v4 v5 v6 v7, md
      = .obj [("depID", v1), ("deployer", v2), ("labID", v3), ("sqsURL", v4),
              ("awsSecret", v5), ("awsKey", v6), ("region", v7)] := by
  rw [extract_lite] at h
  split at h
  · next v hv =>
    rw [py_bind_eq_ok] at hv
    obtain ⟨d1, _, hv⟩ := hv
    rw [py_bind_eq_ok] at hv
    obtain ⟨depId, _, hv⟩ := hv
    rw [py_bind_eq_ok] at hv
    obtain ⟨d2, _, hv⟩ := hv
    rw [py_bind_eq_ok] at hv
    obtain ⟨deployer, _, hv⟩ := hv
    rw [py_bind_eq_ok] at hv
    obtain ⟨labId, _, hv⟩ := hv
    rw [py_bind_eq_ok] at hv
    obtain ⟨sqsUrl, _, hv⟩ := hv
    rw [py_bind_eq_ok] at hv
    obtain ⟨cred, _, hv⟩ := hv
    rw [py_bind_eq_ok] at hv
    obtain ⟨secret, _, hv⟩ := hv
    rw [py_bind_eq_ok] at hv
    obtain ⟨key, _, hv⟩ := hv
    rw [py_bind_eq_ok] at hv
    obtain ⟨region, _, hv⟩ := hv
    rw [py_pure] at hv
    injection hv with hv
    injection h with h
    injection h with h
    exact ⟨depId, deployer, labId, sqsUrl, secret, key, region, by rw [← h, ← hv]⟩
  · injection h with h; cases h
  · injection h with h; cases h
  · cases h

/-- C10: in the lightweight variant, whenever metadata resolution
succeeds, main raises an uncaught KeyError before any message is
delivered, because it reads metadata['LabID'] while query_metadata
returns the key under the name labID (and the loop body would in any
case fault on metadata['SQS_URL'] and on calling the one-parameter
send_sqs with two positional arguments); the heartbeat loop therefore
never performs a successful send in this variant. -/
theorem main_lite_keyerror_before_send (world : LiteEndpoint → Nat → Option JVal)
    (probe : JVal → Option ℚ) (md : JVal)
    (h : query_metadata_lite world probe = .ok (some md)) :
    main_lite (some md) = (.error .keyError, 0)
    ∧ main_lite_run world probe = (.error .keyError, 0) := by
  have hshape : ∃ v1 v2 v3 v4 v5 v6 v7, md
      = .obj [("depID", v1), ("deployer", v2), ("labID", v3), ("sqsURL", v4),
              ("awsSecret", v5), ("awsKey", v6), ("region", v7)] := by
    rw [query_metadata_lite] at h
    split at h
    · injection h with h; cases h
    · split at h
      · injection h with h; cases h
      · split at h
        · injection h with h; cases h
        · exact extract_lite_shape _ _ _ md h
  obtain ⟨v1, v2, v3, v4, v5, v6, v7, rfl⟩ := hshape
  refine ⟨rfl, ?_⟩
  rw [main_lite_run, h]
  rfl

def exampleLiteWorld : LiteEndpoint → Nat → Option JVal := fun e _ =>
  match e with
  | .deployment =>
    some (.obj [("deployment",
      .obj [("id", .s "dep-123"), ("deployer", .s "alice")])])
  | .deploymentTags =>
    some (.obj [("LabID", .s "LAB1"), ("SQS", .s "q")])
  | .cloudAccounts =>
    some (.obj [("cloudAccounts", .arr
      [.obj [("credentials", .arr [exampleAwsCred]), ("regions", .arr [])]])])

theorem main_lite_keyerror_before_send_witness :
    main_lite (some (.obj [("depID", .s "dep-123"), ("deployer", .s "alice"),
        ("labID", .s "LAB1"), ("sqsURL", .s "q"), ("awsSecret", .s "S"),
        ("awsKey", .s "K"), ("region", .s "us-west-2")]))
      = (.error .keyError, 0) :=
  (main_lite_keyerror_before_send exampleLiteWorld (fun _ => none) _ rfl).1

/-! ## b64_lazy_decode (base/app/app.py lines 12-21; identical in site)

    def b64_lazy_decode(s: str) -> str|None:
        try:
            this = base64.b64decode(s + "=" * ((4 - len(s)) % 4))
            return this.decode('utf-8').rstrip('\n')
        except Exception as e:
            return None

The base64 codec and the UTF-8 codec are external library boundaries;
they are modelled below by standard base64 over byte lists (bytes as
Nat < 256) and a standard UTF-8 codec; any malformed input yields none,
matching the catch-all handler. -/
def b64Table : List Char :=
  ['A', 'B', 'C', 'D', 'E', 'F', 'G', 'H', 'I', 'J', 'K', 'L', 'M',
   'N', 'O', 'P', 'Q', 'R', 'S', 'T', 'U', 'V', 'W', 'X', 'Y', 'Z',
   'a', 'b', 'c', 'd', 'e', 'f', 'g', 'h', 'i', 'j', 'k', 'l', 'm',
   'n', 'o', 'p', 'q', 'r', 's', 't', 'u', 'v', 'w', 'x', 'y', 'z',
   '0', '1', '2', '3', '4', '5', '6', '7', '8', '9', '+', '/']

def b64Char (n : Nat) : Char := b64Table.getD n '?'

def b64Index (c : Char) : Option Nat := b64Table.findIdx? (fun d => d = c)

/-- Standard base64 encoding of a byte list, with '=' padding. -/
def b64encodeBytes : List Nat → List Char
  | [] => []
  | [b1] => [b64Char (b1 / 4), b64Char (b1 % 4 * 16), '=', '=']
  | [b1, b2] => [b64Char (b1 / 4), b64Char (b1 % 4 * 16 + b2 / 16),
                 b64Char (b2 % 16 * 4), '=']
  | b1 :: b2 :: b3 :: rest =>
    b64Char (b1 / 4) :: b64Char (b1 % 4 * 16 + b2 / 16)
      :: b64Char (b2 % 16 * 4 + b3 / 64) :: b64Char (b3 % 64)
      :: b64encodeBytes rest

/-- Standard base64 decoding: groups of four symbols, '=' padding only
at the end; anything malformed yields none (the Python call raises
binascii.Error, swallowed by the handler). -/
def b64decodeBytes : List Char → Option (List Nat)
  | [] => some []
  | c1 :: c2 :: c3 :: c4 :: rest =>
    match b64Index c1, b64Index c2 with
    | some s1, some s2 =>
      if c3 = '=' then
        if c4 = '=' ∧ rest = [] then some [s1 * 4 + s2 / 16] else none
      else
        match b64Index c3 with
        | some s3 =>
          if c4 = '=' then
            if rest = [] then some [s1 * 4 + s2 / 16, s2 % 16 * 16 + s3 / 4]
            else none
          else
            match b64Index c4 with
            | some s4 =>
              match b64decodeBytes rest with
              | some bs =>
                some ((s1 * 4 + s2 / 16) :: (s2 % 16 * 16 + s3 / 4)
                        :: (s3 % 4 * 64 + s4) :: bs)
              | none => none
            | none => none
        | none => none
    | _, _ => none
  | _ => none

/-- Standard UTF-8 encoding of one character. -/
def utf8EncodeChar (c : Char) : List Nat :=
  let n := c.toNat
  if n < 0x80 then [n]
  else if n < 0x800 then [0xC0 + n / 64, 0x80 + n % 64]
  else if n < 0x10000 then [0xE0 + n / 4096, 0x80 + n / 64 % 64, 0x80 + n % 64]
  else [0xF0 + n / 262144, 0x80 + n / 4096 % 64, 0x80 + n / 64 % 64,
        0x80 + n % 64]

def utf8Encode (x : String) : List Nat := (x.data.map utf8EncodeChar).flatten

/-- A UTF-8 continuation byte. -/
def utf8Cont (b : Nat) : Bool := 0x80 ≤ b ∧ b < 0xC0

def utf8Val2 (b b2 : Nat) : Nat := (b - 0xC0) * 64 + (b2 - 0x80)

def utf8Val3 (b b2 b3 : Nat) : Nat :=
  (b - 0xE0) * 4096 + (b2 - 0x80) * 64 + (b3 - 0x80)

def utf8Val4 (b b2 b3 b4 : Nat) : Nat :=
  (b - 0xF0) * 262144 + (b2 - 0x80) * 4096 + (b3 - 0x80) * 64 + (b4 - 0x80)

/-- A three-byte sequence must not be overlong and must not encode a
surrogate. -/
def utf8Valid3 (b b2 b3 : Nat) : Bool :=
  0x800 ≤ utf8Val3 b b2 b3
    ∧ (utf8Val3 b b2 b3 < 0xD800 ∨ 0xE000 ≤ utf8Val3 b b2 b3)

/-- A four-byte sequence must not be overlong and must stay in range. -/
def utf8Valid4 (b b2 b3 b4 : Nat) : Bool :=
  0x10000 ≤ utf8Val4 b b2 b3 b4 ∧ utf8Val4 b b2 b3 b4 ≤ 0x10FFFF

/-- Standard UTF-8 decoding of a byte list (rejecting overlong forms,
surrogates and out-of-range values, as bytes.decode('utf-8') does);
none on malformed input.  The recursion is driven by a fuel counter;
every sequence consumes at least one byte per step, so fuel equal to
the byte count (as utf8Decode passes) makes the out-of-fuel arm
unreachable. -/
def utf8DecodeGo : Nat → List Nat → Option (List Char)
  | _, [] => some []
  | 0, _ :: _ => none
  | fuel + 1, b :: rest =>
    if b < 0x80 then (utf8DecodeGo fuel rest).map (fun cs => Char.ofNat b :: cs)
    else if b < 0xC2 then none
    else if b < 0xE0 then
      match rest with
      | b2 :: rest2 =>
        if utf8Cont b2 then
          (utf8DecodeGo fuel rest2).map (fun cs => Char.ofNat (utf8Val2 b b2) :: cs)
        else none
      | [] => none
    else if b < 0xF0 then
      match rest with
      | b2 :: b3 :: rest3 =>
        if utf8Cont b2 && utf8Cont b3 && utf8Valid3 b b2 b3 then
          (utf8DecodeGo fuel rest3).map (fun cs => Char.ofNat (utf8Val3 b b2 b3) :: cs)
        else none
      | _ => none
    else if b < 0xF5 then
      match rest with
      | b2 :: b3 :: b4 :: rest4 =>
        if utf8Cont b2 && utf8Cont b3 && utf8Cont b4 && utf8Valid4 b b2 b3 b4 then
          (utf8DecodeGo fuel rest4).map (fun cs => Char.ofNat (utf8Val4 b b2 b3 b4) :: cs)
        else none
      | _ => none
    else none

def utf8Decode (bs : List Nat) : Option (List Char) := utf8DecodeGo bs.length bs

/-- Python str.rstrip('\n'): remove every trailing newline. -/
def rstripNewline (cs : List Char) : List Char :=
  (cs.reverse.dropWhile (fun c => c = '\n')).reverse

/-- The padding count the source computes: (4 - len(s)) % 4 with
Python's nonnegative %. -/
def lazyPadCount (s : String) : Nat := ((4 - (s.length : Int)) % 4).toNat

def b64DecodePipeline (cs : List Char) : Option String :=
  match b64decodeBytes cs with
  | none => none
  | some bytes =>
    match utf8Decode bytes with
    | none => none
    | some out => some (String.mk (rstripNewline out))

def b64_lazy_decode (s : String) : Option String :=
  b64DecodePipeline (s.data ++ List.replicate (lazyPadCount s) '=')

/-- Modelled from the spec: the encoding applied to tag values before
they were attached to the instance is not part of this repository; per
the spec's TagDecoder section, tag values carry standard base64 with
the '=' padding characters stripped (tags may only contain alphanumeric
characters). -/
def b64encodeNoPad : List Nat → List Char
  | [] => []
  | [b1] => [b64Char (b1 / 4), b64Char (b1 % 4 * 16)]
  | [b1, b2] => [b64Char (b1 / 4), b64Char (b1 % 4 * 16 + b2 / 16),
                 b64Char (b2 % 16 * 4)]
  | b1 :: b2 :: b3 :: rest =>
    b64Char (b1 / 4) :: b64Char (b1 % 4 * 16 + b2 / 16)
      :: b64Char (b2 % 16 * 4 + b3 / 64) :: b64Char (b3 % 64)
      :: b64encodeNoPad rest

/-- Modelled from the spec: encode a tag value (UTF-8 bytes, base64,
padding stripped). -/
def tag_encode (x : String) : String := String.mk (b64encodeNoPad (utf8Encode x))

/-- ASCII alphanumeric code points. -/
def isAlphanumeric (c : Char) : Bool :=
  (65 ≤ c.toNat ∧ c.toNat ≤ 90) ∨ (97 ≤ c.toNat ∧ c.toNat ≤ 122)
    ∨ (48 ≤ c.toNat ∧ c.toNat ≤ 57)

theorem b64Index_b64Char (n : Nat) (h : n < 64) : b64Index (b64Char n) = some n := by
  have hall : ∀ m ∈ List.range 64, b64Index (b64Char m) = some m := by decide
  exact hall n (List.mem_range.mpr h)

theorem b64Char_ne_pad (n : Nat) (h : n < 64) : (b64Char n = '=') = False := by
  have hall : ∀ m ∈ List.range 64, (b64Char m = '=') = False := by
    simp only [eq_iff_iff, iff_false]
    decide
  exact hall n (List.mem_range.mpr h)

theorem b64_roundtrip : ∀ bs : List Nat, (∀ b ∈ bs, b < 256) →
    b64decodeBytes (b64encodeBytes bs) = some bs
  | [], _ => rfl
  | [b1], h => by
    have hb1 : b1 < 256 := h b1 (by simp)
    have e1 : b64Index (b64Char (b1 / 4)) = some (b1 / 4) :=
      b64Index_b64Char _ (by omega)
    have e2 : b64Index (b64Char (b1 % 4 * 16)) = some (b1 % 4 * 16) :=
      b64Index_b64Char _ (by omega)
    simp only [b64encodeBytes, b64decodeBytes, e1, e2]
    simp
    omega
  | [b1, b2], h => by
    have hb1 : b1 < 256 := h b1 (by simp)
    have hb2 : b2 < 256 := h b2 (by simp)
    have e1 : b64Index (b64Char (b1 / 4)) = some (b1 / 4) :=
      b64Index_b64Char _ (by omega)
    have e2 : b64Index (b64Char (b1 % 4 * 16 + b2 / 16))
        = some (b1 % 4 * 16 + b2 / 16) := b64Index_b64Char _ (by omega)
    have e3 : b64Index (b64Char (b2 % 16 * 4)) = some (b2 % 16 * 4) :=
      b64Index_b64Char _ (by omega)
    have n3 : (b64Char (b2 % 16 * 4) = '=') = False := b64Char_ne_pad _ (by omega)
    simp only [b64encodeBytes, b64decodeBytes, e1, e2, e3, n3, if_false]
    simp
    omega
  | b1 :: b2 :: b3 :: rest, h => by
    have hb1 : b1 < 256 := h b1 (by simp)
    have hb2 : b2 < 256 := h b2 (by simp)
    have hb3 : b3 < 256 := h b3 (by simp)
    have ih := b64_roundtrip rest (fun b hb => h b (by simp [hb]))
    have e1 : b64Index (b64Char (b1 / 4)) = some (b1 / 4) :=
      b64Index_b64Char _ (by omega)
    have e2 : b64Index (b64Char (b1 % 4 * 16 + b2 / 16))
        = some (b1 % 4 * 16 + b2 / 16) := b64Index_b64Char _ (by omega)
    have e3 : b64Index (b64Char (b2 % 16 * 4 + b3 / 64))
        = some (b2 % 16 * 4 + b3 / 64) := b64Index_b64Char _ (by omega)
    have e4 : b64Index (b64Char (b3 % 64)) = some (b3 % 64) :=
      b64Index_b64Char _ (by omega)
    have n3 : (b64Char (b2 % 16 * 4 + b3 / 64) = '=') = False :=
      b64Char_ne_pad _ (by omega)
    have n4 : (b64Char (b3 % 64) = '=') = False := b64Char_ne_pad _ (by omega)
    simp only [b64encodeBytes, b64decodeBytes, e1, e2, e3, e4, n3, n4,
      if_false, ih]
    have r1 : b1 / 4 * 4 + (b1 % 4 * 16 + b2 / 16) / 16 = b1 := by omega
    have r2 : (b1 % 4 * 16 + b2 / 16) % 16 * 16 + (b2 % 16 * 4 + b3 / 64) / 4 = b2 := by
      omega
    have r3 : (b2 % 16 * 4 + b3 / 64) % 4 * 64 + b3 % 64 = b3 := by omega
    simp [r1, r2, r3]

theorem b64encodeNoPad_append_pad : ∀ bs : List Nat,
    b64encodeNoPad bs
        ++ List.replicate ((4 - (b64encodeNoPad bs).length % 4) % 4) '='
      = b64encodeBytes bs
  | [] => rfl
  | [b1] => rfl
  | [b1, b2] => rfl
  | b1 :: b2 :: b3 :: rest => by
    have ih := b64encodeNoPad_append_pad rest
    simp only [b64encodeNoPad, b64encodeBytes, List.length_cons, List.cons_append]
    have hmod : (4 - ((b64encodeNoPad rest).length + 1 + 1 + 1 + 1) % 4) % 4
        = (4 - (b64encodeNoPad rest).length % 4) % 4 := by omega
    rw [hmod, ih]

theorem utf8EncodeChar_ascii (c : Char) (h : c.toNat < 128) :
    utf8EncodeChar c = [c.toNat] := by
  simp [utf8EncodeChar, h]

theorem utf8Encode_ascii (l : List Char) (h : ∀ c ∈ l, c.toNat < 128) :
    (l.map utf8EncodeChar).flatten = l.map Char.toNat := by
  induction l with
  | nil => rfl
  | cons c rest ih =>
    rw [List.map_cons, List.flatten_cons, utf8EncodeChar_ascii c (h c (by simp)),
        List.map_cons, ih (fun d hd => h d (by simp [hd]))]
    rfl

theorem utf8DecodeGo_ascii (l : List Char) :
    ∀ fuel : Nat, (∀ c ∈ l, c.toNat < 128) → l.length ≤ fuel →
      utf8DecodeGo fuel (l.map Char.toNat) = some l := by
  induction l with
  | nil =>
    intro fuel _ _
    rw [List.map_nil, utf8DecodeGo]
  | cons c rest ih =>
    intro fuel h hlen
    cases fuel with
    | zero => simp at hlen
    | succ fuel =>
      have hc : c.toNat < 0x80 := h c (by simp)
      have ihr := ih fuel (fun d hd => h d (by simp [hd])) (by simpa using hlen)
      cases rest with
      | nil => simp [utf8DecodeGo, hc, Char.ofNat_toNat]
      | cons d rest2 =>
        rw [List.map_cons, List.map_cons, utf8DecodeGo, if_pos hc,
          ← List.map_cons, ihr, Option.map_some', Char.ofNat_toNat]

theorem utf8Decode_ascii (l : List Char) (h : ∀ c ∈ l, c.toNat < 128) :
    utf8Decode (l.map Char.toNat) = some l := by
  rw [utf8Decode, List.length_map]
  exact utf8DecodeGo_ascii l l.length h (le_refl _)

theorem rstripNewline_id (l : List Char) (h : ∀ c ∈ l, isAlphanumeric c = true) :
    rstripNewline l = l := by
  rw [rstripNewline]
  cases hrev : l.reverse with
  | nil =>
    rw [List.reverse_eq_nil_iff] at hrev
    subst hrev
    rfl
  | cons c cr =>
    have hcl : c ∈ l := by
      rw [← List.mem_reverse, hrev]
      simp
    have hcn : ¬ (c = '\n') := by
      intro hceq
      subst hceq
      exact absurd (h _ hcl) (by decide)
    rw [List.dropWhile_cons, if_neg (by simp [hcn]), ← hrev,
      List.reverse_reverse]

theorem tag_roundtrip (x : String) (hx : ∀ c ∈ x.data, isAlphanumeric c = true) :
    b64_lazy_decode (tag_encode x) = some x := by
  have hascii : ∀ c ∈ x.data, c.toNat < 128 := by
    intro c hc
    have h2 : (65 ≤ c.toNat ∧ c.toNat ≤ 90) ∨ (97 ≤ c.toNat ∧ c.toNat ≤ 122)
        ∨ (48 ≤ c.toNat ∧ c.toNat ≤ 57) := by
      simpa [isAlphanumeric] using hx c hc
    omega
  have hbytes : utf8Encode x = x.data.map Char.toNat := by
    rw [utf8Encode]
    exact utf8Encode_ascii x.data hascii
  have hlt : ∀ b ∈ x.data.map Char.toNat, b < 256 := by
    intro b hb
    rcases List.mem_map.mp hb with ⟨c, hc, rfl⟩
    have := hascii c hc
    omega
  have hpad : lazyPadCount (tag_encode x)
      = (4 - (b64encodeNoPad (utf8Encode x)).length % 4) % 4 := by
    have hlen : (tag_encode x).length = (b64encodeNoPad (utf8Encode x)).length := rfl
    rw [lazyPadCount, hlen]
    omega
  have hdata : (tag_encode x).data = b64encodeNoPad (utf8Encode x) := rfl
  rw [b64_lazy_decode, hdata, hpad, b64encodeNoPad_append_pad, hbytes,
    b64DecodePipeline, b64_roundtrip _ hlt]
  simp only [utf8Decode_ascii x.data hascii, rstripNewline_id x.data hx]

/-- C5: the tag decoder restores exactly (4 - len(s) mod 4) mod 4
padding characters before reversing the base64 encoding whenever the
tag's length is not a multiple of 4, and decode(encode(x)) = x for
every alphanumeric x (which has no trailing newlines for the final
rstrip to remove). -/
theorem b64_lazy_decode_padding_roundtrip :
    (∀ s : String, s.length % 4 ≠ 0 →
        lazyPadCount s = (4 - s.length % 4) % 4
        ∧ b64_lazy_decode s
            = b64DecodePipeline
                (s.data ++ List.replicate ((4 - s.length % 4) % 4) '='))
    ∧ (∀ x : String, (∀ c ∈ x.data, isAlphanumeric c = true) →
        b64_lazy_decode (tag_encode x) = some x) := by
  refine ⟨fun s _ => ?_, tag_roundtrip⟩
  have hp : lazyPadCount s = (4 - s.length % 4) % 4 := by
    rw [lazyPadCount]
    omega
  exact ⟨hp, by rw [b64_lazy_decode, hp]⟩

theorem b64_lazy_decode_padding_roundtrip_witness :
    lazyPadCount "QQ" = (4 - "QQ".length % 4) % 4
    ∧ b64_lazy_decode (tag_encode "A") = some "A" :=
  ⟨(b64_lazy_decode_padding_roundtrip.1 "QQ" (by decide)).1,
   b64_lazy_decode_padding_roundtrip.2 "A" (by decide)⟩

end Orijen
